import Mathlib

/-!
Shallow embedding of the Pink Morsels sales pipeline
(`app.py` and `process_data.py` of quantium-task-1-model-answer).

Pandas columnwise operations are embedded as row-wise Lean functions over
lists of records; monetary values are rationals; calendar dates are encoded
as `y*10000 + m*100 + d`, which orders exactly like the calendar date.
String primitives (trim, split, digit parsing) are implemented structurally
over `List Char` so that every definition evaluates by kernel reduction.
-/

namespace Quantium

/-- A cell of a pandas column: `none` models a missing value (NaN). -/
abbrev Cell := Option String

/-- `astype(str)` on a cell: pandas renders a missing value as the string
`"nan"`. -/
def cellStr : Cell → String
  | none => "nan"
  | some s => s

/-- Remove every occurrence of the character `c` from `s`
(`Series.str.replace(c, "", regex=False)` for a one-character pattern). -/
def removeAll (c : Char) (s : String) : String :=
  ⟨s.data.filter (fun x => x ≠ c)⟩

/-- `Series.str.lower()`: lowercase every character. -/
def lowerString (s : String) : String :=
  ⟨s.data.map Char.toLower⟩

/-- Drop leading whitespace characters. -/
def dropWhite : List Char → List Char
  | [] => []
  | c :: cs => if c.isWhitespace then dropWhite cs else c :: cs

/-- `str.strip()`: drop leading and trailing whitespace. -/
def strTrim (s : String) : String :=
  ⟨(dropWhite (dropWhite s.data.reverse).reverse)⟩

/-- Value of a digit character, `none` if not a digit. -/
def digitVal (c : Char) : Option Nat :=
  if '0' ≤ c ∧ c ≤ '9' then some (c.toNat - 48) else none

/-- Parse a nonempty all-digit character list as a natural number. -/
def digitsVal : List Char → Option Nat
  | [] => none
  | l => go l 0
where
  go : List Char → Nat → Option Nat
    | [], acc => some acc
    | c :: cs, acc =>
      match digitVal c with
      | some d => go cs (acc * 10 + d)
      | none => none

/-- Split a character list at every occurrence of `sep`
(Python `str.split(sep)` semantics: `"" ↦ [""]`, separators delimit
possibly-empty fields). -/
def splitOnChar (sep : Char) : List Char → List (List Char)
  | [] => [[]]
  | c :: cs =>
    let r := splitOnChar sep cs
    if c = sep then [] :: r
    else
      match r with
      | [] => [[c]]
      | h :: t => (c :: h) :: t

/-- Decimal parsing used to model `pd.to_numeric(..., errors="coerce")` and
`astype(float)` on the string values that occur in this pipeline: an optional
leading minus sign, then digits with at most one decimal point.  Returns
`none` on anything unparseable (which pandas coerces to NaN / raises on). -/
def parseDecimal (s : String) : Option ℚ :=
  let l := s.data
  let sign : ℚ := match l with | '-' :: _ => -1 | _ => 1
  let body : List Char := match l with | '-' :: rest => rest | _ => l
  match splitOnChar '.' body with
  | [i] =>
    match digitsVal i with
    | some n => some (sign * n)
    | none => none
  | [i, f] =>
    match i, f with
    | [], [] => none
    | _, _ =>
      match (match i with | [] => some 0 | _ => digitsVal i),
            (match f with | [] => some 0 | _ => digitsVal f) with
      | some ni, some nf => some (sign * ((ni : ℚ) + (nf : ℚ) / (10 ^ f.length)))
      | _, _ => none
  | _ => none

/-- `pd.to_datetime(..., errors="coerce")`, modelled on the ISO-like
`YYYY-MM-DD` date strings this pipeline's data carries (spec §6): a missing or
unparseable cell becomes `none` (NaT).  The encoding `y*10000 + m*100 + d`
preserves calendar order. -/
def parseDate : Cell → Option Nat
  | none => none
  | some s =>
    match splitOnChar '-' (strTrim s).data with
    | [y, m, d] =>
      match digitsVal y, digitsVal m, digitsVal d with
      | some yn, some mn, some dn =>
        if 1 ≤ mn ∧ mn ≤ 12 ∧ 1 ≤ dn ∧ dn ≤ 31 then
          some (yn * 10000 + mn * 100 + dn)
        else none
      | _, _, _ => none
    | _ => none

/-- The sales-string cleaning of `app.py` lines 75-82:
`.str.replace(",", "").str.replace("€", "").str.replace("$", "").str.strip()`. -/
def stripSales (s : String) : String :=
  strTrim (removeAll '$' (removeAll '€' (removeAll ',' s)))

/-- `app.py` lines 75-83: clean the sales cell and parse it numerically. -/
def parseSales (c : Cell) : Option ℚ :=
  parseDecimal (stripSales (cellStr c))

/-- The region normalisation of `app.py` line 69:
`.astype(str).str.strip().str.lower()`. -/
def cleanRegion (c : Cell) : String :=
  lowerString (strTrim (cellStr c))

/-- One raw row of `formatted_sales_data.csv` as read by `app.py`
(after column resolution): the three relevant cells. -/
structure SRow where
  date : Cell
  sales : Cell
  region : Cell
deriving DecidableEq, Repr

/-- One row of the cleaned table `df_clean`. -/
structure Row where
  date : Nat
  region : String
  sales : ℚ
deriving DecidableEq, Repr

/-- Row-wise content of `app.py` lines 69-86: normalise the region, parse the
date and the sales value, and keep the row only when both parses succeed
(`dropna(subset=["date", "sales", "region"])`; the region column went through
`astype(str)` first, so it is never null at the `dropna`). -/
def cleanRow (r : SRow) : Option Row :=
  match parseDate r.date, parseSales r.sales with
  | some d, some v => some ⟨d, cleanRegion r.region, v⟩
  | _, _ => none

/-- `df_clean` (`app.py` lines 69-86) as a function of the raw table. -/
def df_clean (rt : List SRow) : List Row :=
  rt.filterMap cleanRow

/-- The region filter inside `update` (`app.py` lines 295-296):
`"all"` is a no-op, any other value filters by string equality. -/
def filterRegion (t : List Row) (v : String) : List Row :=
  if v = "all" then t else t.filter (fun r => r.region = v)

/-- `dff.groupby("date", as_index=False)["sales"].sum().sort_values("date")`
(`app.py` line 302): one `(date, summed sales)` pair per distinct date,
sorted ascending by date. -/
def groupDaily (t : List Row) : List (Nat × ℚ) :=
  (((t.map Row.date).dedup).insertionSort (· ≤ ·)).map
    (fun d => (d, ((t.filter (fun r => r.date = d)).map Row.sales).sum))

/-- `float(daily["sales"].sum())` (`app.py` line 304). -/
def totalSales (t : List Row) : ℚ :=
  ((groupDaily t).map Prod.snd).sum

/-- `float(daily["sales"].mean())` (`app.py` line 305): the mean of the
per-date sums. -/
def avgDaily (t : List Row) : ℚ :=
  ((groupDaily t).map Prod.snd).sum / ((groupDaily t).length : ℚ)

/-- `int(daily.shape[0])` (`app.py` line 306). -/
def daysInView (t : List Row) : Nat :=
  (groupDaily t).length

/-! ### Column resolution and the `update` callback -/

/-- Does `needle` occur at the start of `hay`? (helper for Python `in`). -/
def leadsWith : List Char → List Char → Bool
  | [], _ => true
  | _ :: _, [] => false
  | a :: as, b :: bs => a = b && leadsWith as bs

/-- Python substring test `needle in hay` on strings. -/
def occursIn (needle hay : List Char) : Bool :=
  leadsWith needle hay ||
    match hay with
    | [] => false
    | _ :: rest => occursIn needle rest

/-- `_normalize_cols` (`app.py` lines 9-12): trim and lowercase every column
name. -/
def normalizeCols (cols : List String) : List String :=
  cols.map (fun c => lowerString (strTrim c))

/-- `_find_col` (`app.py` lines 14-24): first an exact membership pass over
the candidates, then a fallback pass over the columns looking for a candidate
as a substring. -/
def _find_col (cols : List String) (candidates : List String) : Option String :=
  match candidates.find? (fun c => cols.contains c) with
  | some c => some c
  | none => cols.find? (fun col => candidates.any (fun cand => occursIn cand.data col.data))

/-- Schema resolution of `app.py` lines 49-63: locate the three required
columns in the normalised header; on failure `df_clean` is `None` and the
capitalised names of the unfound columns are collected in order. -/
def loadSchema (header : List String) : Bool × List String :=
  let cols := normalizeCols header
  let s := _find_col cols ["sales"]
  let d := _find_col cols ["date"]
  let r := _find_col cols ["region"]
  if s.isSome ∧ d.isSome ∧ r.isSome then (true, [])
  else (false, (if s.isSome then [] else ["Sales"]) ++
               (if d.isSome then [] else ["Date"]) ++
               (if r.isSome then [] else ["Region"]))

/-- A figure returned by the callback: either the `_empty_figure` placeholder
with its message, or the daily line chart (`px.line` on the daily series). -/
inductive Fig where
  | emptyFigure (message : String) : Fig
  | lineChart (daily : List (Nat × ℚ)) : Fig
deriving DecidableEq, Repr

/-- A KPI display value: the em-dash placeholder, a literal string such as
`"0"`, or a number rendered by Python float formatting (rendering abstracted). -/
inductive Kpi where
  | dash : Kpi
  | lit (s : String) : Kpi
  | fmt (v : ℚ) : Kpi
deriving DecidableEq, Repr

/-- The "missing columns" message of `app.py` line 290. -/
def missingMsg (missing : List String) : String :=
  "CSV columns missing. Expected: Sales, Date, Region. Missing: " ++
    String.intercalate ", " missing

/-- The callback `update` (`app.py` lines 287-339): `dfc` is `df_clean`
(`none` when the schema was unresolved, in which case `missing` carries the
unfound column names). -/
def update (dfc : Option (List Row)) (missing : List String) (region_value : String) :
    Fig × Kpi × Kpi × Kpi :=
  match dfc with
  | none => (Fig.emptyFigure (missingMsg missing), Kpi.dash, Kpi.dash, Kpi.dash)
  | some t =>
    let dff := filterRegion t region_value
    if dff = [] then
      (Fig.emptyFigure "No data for this region.", Kpi.lit "0", Kpi.lit "0", Kpi.lit "0")
    else
      (Fig.lineChart (groupDaily dff),
       Kpi.fmt (totalSales dff), Kpi.fmt (avgDaily dff), Kpi.fmt (daysInView dff))

/-! ### Filter Engine with date bounds -/

/-- Modelled from the spec: the Filter Engine's optional `date_start` and
`date_end` bounds (spec §4.3) are inclusive and an absent bound is unbounded
on that side; only the region filter appears in `src/app.py`'s `update`
(lines 295-296), whose semantics the region branch reproduces (the spec also
lets the region be absent, a no-op like `"all"`). -/
def applyFilter (t : List Row) (region : Option String) (d1 d2 : Option Nat) :
    List Row :=
  let t1 := match region with
    | none => t
    | some v => if v = "all" then t else t.filter (fun r => r.region = v)
  let t2 := match d1 with
    | none => t1
    | some a => t1.filter (fun r => a ≤ r.date)
  match d2 with
  | none => t2
  | some b => t2.filter (fun r => r.date ≤ b)

/-! ### The formatter (`process_data.py`) -/

/-- One row of a raw `daily_sales_data_*.csv` file. -/
structure FRow where
  product : String
  price : String
  quantity : ℚ
  date : String
  region : String
deriving DecidableEq, Repr

/-- One output row of `formatted_sales_data.csv`: `Sales`, `Date`, `Region`. -/
structure ORow where
  sales : ℚ
  date : String
  region : String
deriving DecidableEq, Repr

/-- `df["price"].replace('[\$,]', '', regex=True)` (`process_data.py`
line 15): delete every `$` and `,` character. -/
def stripPrice (s : String) : String :=
  removeAll ',' (removeAll '$' s)

/-- A columnwise conversion that fails as a whole if any cell fails
(`astype(float)` raises on the first unparseable value). -/
def parseAll {α β : Type} (f : α → Option β) : List α → Option (List β)
  | [] => some []
  | x :: xs =>
    match f x, parseAll f xs with
    | some y, some ys => some (y :: ys)
    | _, _ => none

/-- The whole `process_data.py` run: keep Pink Morsel rows (line 12), parse
the stripped price column — any failure aborts the run and no file is written
(line 15) — then emit `Sales = price * quantity`, `Date`, `Region`
(lines 18-27).  `none` models the uncaught exception: no output file. -/
def processData (rows : List FRow) : Option (List ORow) :=
  let kept := rows.filter (fun r => lowerString r.product = "pink morsel")
  match parseAll (fun r => parseDecimal (stripPrice r.price)) kept with
  | none => none
  | some prices =>
    some ((kept.zip prices).map (fun rp => ⟨rp.2 * rp.1.quantity, rp.1.date, rp.1.region⟩))

/-! ### Helper lemmas -/

theorem cleanRow_region {s : SRow} {r : Row} (h : cleanRow s = some r) :
    r.region = cleanRegion s.region := by
  unfold cleanRow at h
  split at h
  · cases h; rfl
  · cases h

theorem mem_df_clean {rt : List SRow} {r : Row} :
    r ∈ df_clean rt ↔ ∃ s ∈ rt, cleanRow s = some r := by
  unfold df_clean
  exact List.mem_filterMap

theorem parseAll_eq_none {α β : Type} (f : α → Option β) (l : List α) (x : α)
    (hx : x ∈ l) (hf : f x = none) : parseAll f l = none := by
  induction l with
  | nil => cases hx
  | cons a as ih =>
    rcases List.mem_cons.1 hx with rfl | hmem
    · unfold parseAll
      rw [hf]
    · unfold parseAll
      rw [ih hmem]
      cases f a <;> rfl

theorem sum_split (p : Row → Bool) (t : List Row) :
    ((t.filter p).map Row.sales).sum + ((t.filter (fun r => !(p r))).map Row.sales).sum
      = (t.map Row.sales).sum := by
  induction t with
  | nil => simp
  | cons a as ih =>
    by_cases h : p a
    · simp [List.filter_cons, h]
      linarith [ih]
    · simp [List.filter_cons, h]
      linarith [ih]

theorem sum_over_dates (ds : List Nat) (t : List Row) (hnd : ds.Nodup)
    (hcov : ∀ r ∈ t, r.date ∈ ds) :
    (ds.map (fun d => ((t.filter (fun r => r.date = d)).map Row.sales).sum)).sum
      = (t.map Row.sales).sum := by
  induction ds generalizing t with
  | nil =>
    cases t with
    | nil => simp
    | cons a as => exact absurd (hcov a (List.mem_cons_self a as)) (List.not_mem_nil _)
  | cons d ds ih =>
    have hdn : d ∉ ds := (List.nodup_cons.1 hnd).1
    have hnd' : ds.Nodup := (List.nodup_cons.1 hnd).2
    have hcov2 : ∀ r ∈ t.filter (fun r => !(decide (r.date = d))), r.date ∈ ds := by
      intro r hr
      obtain ⟨hrt, hne⟩ := List.mem_filter.1 hr
      simp only [Bool.not_eq_true', decide_eq_false_iff_not] at hne
      rcases List.mem_cons.1 (hcov r hrt) with h | h
      · exact absurd h hne
      · exact h
    have hfil : ∀ d' ∈ ds,
        (t.filter (fun r => !(decide (r.date = d)))).filter (fun r => r.date = d')
          = t.filter (fun r => r.date = d') := by
      intro d' hd'
      rw [List.filter_filter]
      apply List.filter_congr
      intro r _
      by_cases h : r.date = d'
      · simp [h]
        exact fun heq => hdn (heq ▸ hd')
      · simp [h]
    simp only [List.map_cons, List.sum_cons]
    rw [show (ds.map (fun d' => ((t.filter (fun r => r.date = d')).map Row.sales).sum))
          = ds.map (fun d' => (((t.filter (fun r => !(decide (r.date = d)))).filter
              (fun r => r.date = d')).map Row.sales).sum) from
        (List.map_congr_left (fun d' hd' => by rw [hfil d' hd'])).symm]
    rw [ih _ hnd' hcov2]
    exact sum_split (fun r => decide (r.date = d)) t

/-! ### Claim theorems -/

/-- C2: filtering the cleaned table by `"all"` returns it unchanged; any other
value keeps exactly the rows whose (trimmed, lowercased) normalised region
field equals the value — the cleaned table's region field is exactly the
normalised raw region. -/
theorem region_filter_exact (rt : List SRow) (v : String) (hv : v ≠ "all") :
    filterRegion (df_clean rt) "all" = df_clean rt ∧
    (∀ r : Row, r ∈ filterRegion (df_clean rt) v ↔ r ∈ df_clean rt ∧ r.region = v) ∧
    (∀ r ∈ df_clean rt, ∃ s ∈ rt, r.region = cleanRegion s.region) := by
  refine ⟨by simp [filterRegion], ?_, ?_⟩
  · intro r
    rw [filterRegion, if_neg hv, List.mem_filter]
    simp
  · intro r hr
    obtain ⟨s, hs, hcs⟩ := mem_df_clean.1 hr
    exact ⟨s, hs, cleanRow_region hcs⟩

/-- Witness for C2 at a concrete table and the region value `"north"`. -/
theorem region_filter_exact_witness :
    filterRegion (df_clean [⟨some "2021-01-14", some "3.00", some "north"⟩]) "all"
        = df_clean [⟨some "2021-01-14", some "3.00", some "north"⟩] ∧
    (∀ r : Row, r ∈ filterRegion (df_clean [⟨some "2021-01-14", some "3.00", some "north"⟩]) "north" ↔
        r ∈ df_clean [⟨some "2021-01-14", some "3.00", some "north"⟩] ∧ r.region = "north") ∧
    (∀ r ∈ df_clean [⟨some "2021-01-14", some "3.00", some "north"⟩],
        ∃ s ∈ [(⟨some "2021-01-14", some "3.00", some "north"⟩ : SRow)],
          r.region = cleanRegion s.region) :=
  region_filter_exact [⟨some "2021-01-14", some "3.00", some "north"⟩] "north" (by decide)

/-- C3: a filter selection matching zero rows short-circuits into the explicit
placeholder output: the empty-state figure and the three `"0"` KPI strings —
no error and no division by zero. -/
theorem empty_view_placeholder (t : List Row) (m : List String) (v : String)
    (h : filterRegion t v = []) :
    update (some t) m v =
      (Fig.emptyFigure "No data for this region.", Kpi.lit "0", Kpi.lit "0", Kpi.lit "0") := by
  simp [update, h]

/-- Witness for C3: a one-row table whose only region is `"north"`, filtered
by `"south"`. -/
theorem empty_view_placeholder_witness :
    update (some [⟨20210114, "north", 3⟩]) [] "south" =
      (Fig.emptyFigure "No data for this region.", Kpi.lit "0", Kpi.lit "0", Kpi.lit "0") :=
  empty_view_placeholder [⟨20210114, "north", 3⟩] [] "south" (by decide)

/-- C1: on a non-empty filtered view, `total` is the sum of `sales` over
exactly the rows of the view, `distinct_day_count` is the number of unique
dates in the view, `average_per_day` is `total / distinct_day_count`, and the
daily series values sum to `total`. -/
theorem aggregate_conservation (t : List Row) (_hne : t ≠ []) :
    totalSales t = (t.map Row.sales).sum ∧
    daysInView t = (t.map Row.date).toFinset.card ∧
    avgDaily t = totalSales t / (daysInView t : ℚ) ∧
    ((groupDaily t).map Prod.snd).sum = totalSales t := by
  have hperm : List.Perm (((t.map Row.date).dedup).insertionSort (· ≤ ·))
      ((t.map Row.date).dedup) :=
    List.perm_insertionSort _ _
  refine ⟨?_, ?_, rfl, rfl⟩
  · have e1 : totalSales t
        = ((((t.map Row.date).dedup).insertionSort (· ≤ ·)).map
            (fun d => ((t.filter (fun r => r.date = d)).map Row.sales).sum)).sum := by
      unfold totalSales groupDaily
      rw [List.map_map]
      rfl
    have hmap := hperm.map
      (fun d => ((t.filter (fun r => r.date = d)).map Row.sales).sum)
    rw [e1, hmap.sum_eq]
    exact sum_over_dates _ t (List.nodup_dedup _)
      (fun r hr => List.mem_dedup.2 (List.mem_map_of_mem Row.date hr))
  · unfold daysInView groupDaily
    rw [List.length_map, hperm.length_eq, List.card_toFinset]

/-- Witness for C1 at a concrete three-row view over two distinct dates. -/
theorem aggregate_conservation_witness :
    totalSales [⟨20210114, "north", 6⟩, ⟨20210115, "north", 7⟩, ⟨20210114, "south", 2⟩]
        = ([⟨20210114, "north", 6⟩, ⟨20210115, "north", 7⟩,
            (⟨20210114, "south", 2⟩ : Row)].map Row.sales).sum ∧
    daysInView [⟨20210114, "north", 6⟩, ⟨20210115, "north", 7⟩, ⟨20210114, "south", 2⟩]
        = ([⟨20210114, "north", 6⟩, ⟨20210115, "north", 7⟩,
            (⟨20210114, "south", 2⟩ : Row)].map Row.date).toFinset.card ∧
    avgDaily [⟨20210114, "north", 6⟩, ⟨20210115, "north", 7⟩, ⟨20210114, "south", 2⟩]
        = totalSales [⟨20210114, "north", 6⟩, ⟨20210115, "north", 7⟩, ⟨20210114, "south", 2⟩]
            / (daysInView [⟨20210114, "north", 6⟩, ⟨20210115, "north", 7⟩,
                ⟨20210114, "south", 2⟩] : ℚ) ∧
    ((groupDaily [⟨20210114, "north", 6⟩, ⟨20210115, "north", 7⟩,
        ⟨20210114, "south", 2⟩]).map Prod.snd).sum
      = totalSales [⟨20210114, "north", 6⟩, ⟨20210115, "north", 7⟩, ⟨20210114, "south", 2⟩] :=
  aggregate_conservation
    [⟨20210114, "north", 6⟩, ⟨20210115, "north", 7⟩, ⟨20210114, "south", 2⟩] (by decide)

/-- C4: the daily series has strictly increasing dates (sorted ascending, no
duplicates), with one entry per distinct date of the view. -/
theorem daily_series_strictly_sorted (t : List Row) :
    List.Pairwise (fun p q : Nat × ℚ => p.1 < q.1) (groupDaily t) ∧
    (∀ d : Nat, d ∈ (groupDaily t).map Prod.fst ↔ d ∈ t.map Row.date) := by
  have hperm : List.Perm (((t.map Row.date).dedup).insertionSort (· ≤ ·))
      ((t.map Row.date).dedup) :=
    List.perm_insertionSort _ _
  have hsorted : List.Sorted (· ≤ ·) (((t.map Row.date).dedup).insertionSort (· ≤ ·)) :=
    List.sorted_insertionSort _ _
  have hnodup : (((t.map Row.date).dedup).insertionSort (· ≤ ·)).Nodup :=
    hperm.nodup_iff.2 (List.nodup_dedup _)
  have hlt := hsorted.lt_of_le hnodup
  constructor
  · unfold groupDaily
    rw [List.pairwise_map]
    exact hlt
  · intro d
    have e2 : (groupDaily t).map Prod.fst
        = ((t.map Row.date).dedup).insertionSort (· ≤ ·) := by
      unfold groupDaily
      rw [List.map_map]
      exact List.map_id _
    rw [e2, hperm.mem_iff, List.mem_dedup]

/-- C5 (code bug): a source row with a parseable date and sales but a missing
region cell is NOT excluded from the cleaned table — `astype(str)` turns the
missing region into the literal string `"nan"` before the `dropna`, so the
row is retained, contradicting the invariant that a row with an unparseable
region never reaches the aggregates. -/
theorem region_nan_row_retained :
    df_clean [⟨some "2021-01-14", some "3.00", none⟩] = [⟨20210114, "nan", 3⟩] := by
  have h : df_clean [⟨some "2021-01-14", some "3.00", none⟩]
      = [⟨20210114, "nan", (1 : ℚ) * (((3 : ℕ) : ℚ) + ((0 : ℕ) : ℚ) / (10 ^ 2))⟩] := rfl
  rw [h]
  norm_num [Row.mk.injEq]

/-- C6: monetary cleaning strips `$`, `€` and thousands-separator commas and
then parses a decimal: `"$3.00" ↦ 3`, `"3.00" ↦ 3`, `"€3,000.00" ↦ 3000`,
`"abc" ↦` absent; and a row whose sales value fails to parse is dropped from
the cleaned table (it contributes nothing, wherever it sits). -/
theorem currency_stripping (xs ys : List SRow) (s : SRow)
    (h : parseSales s.sales = none) :
    parseSales (some "$3.00") = some 3 ∧
    parseSales (some "3.00") = some 3 ∧
    parseSales (some "€3,000.00") = some 3000 ∧
    parseSales (some "abc") = none ∧
    df_clean (xs ++ s :: ys) = df_clean xs ++ df_clean ys := by
  refine ⟨?_, ?_, ?_, by decide, ?_⟩
  · have e : parseSales (some "$3.00")
        = some ((1 : ℚ) * (((3 : ℕ) : ℚ) + ((0 : ℕ) : ℚ) / (10 ^ 2))) := rfl
    rw [e]
    norm_num
  · have e : parseSales (some "3.00")
        = some ((1 : ℚ) * (((3 : ℕ) : ℚ) + ((0 : ℕ) : ℚ) / (10 ^ 2))) := rfl
    rw [e]
    norm_num
  · have e : parseSales (some "€3,000.00")
        = some ((1 : ℚ) * (((3000 : ℕ) : ℚ) + ((0 : ℕ) : ℚ) / (10 ^ 2))) := rfl
    rw [e]
    norm_num
  · have hc : cleanRow s = none := by
      unfold cleanRow
      rw [h]
      cases parseDate s.date <;> rfl
    unfold df_clean
    rw [List.filterMap_append, List.filterMap_cons, hc]

/-- Witness for C6: the unparseable-sales row `"abc"` alone in the table. -/
theorem currency_stripping_witness :
    parseSales (some "$3.00") = some 3 ∧
    parseSales (some "3.00") = some 3 ∧
    parseSales (some "€3,000.00") = some 3000 ∧
    parseSales (some "abc") = none ∧
    df_clean ([] ++ (⟨some "2021-01-01", some "abc", some "north"⟩ : SRow) :: [])
      = df_clean [] ++ df_clean [] :=
  currency_stripping [] [] ⟨some "2021-01-01", some "abc", some "north"⟩ (by decide)

/-- C7: when a required column is not located (exact pass, then substring
fallback), the loader flags the schema unresolved with a non-empty missing
list and every callback invocation returns the descriptive "missing columns"
empty figure with the three `"—"` KPI placeholders — it never raises. -/
theorem missing_columns_placeholder (header : List String) (v : String)
    (h : _find_col (normalizeCols header) ["sales"] = none ∨
         _find_col (normalizeCols header) ["date"] = none ∨
         _find_col (normalizeCols header) ["region"] = none) :
    (loadSchema header).1 = false ∧ (loadSchema header).2 ≠ [] ∧
    update none (loadSchema header).2 v =
      (Fig.emptyFigure (missingMsg (loadSchema header).2),
       Kpi.dash, Kpi.dash, Kpi.dash) := by
  refine ⟨?_, ?_, rfl⟩
  · unfold loadSchema
    rcases h with h | h | h <;> simp [h]
  · unfold loadSchema
    rcases h with h | h | h <;> simp [h]

/-- Witness for C7: a header with no sales column. -/
theorem missing_columns_placeholder_witness :
    (loadSchema ["date", "region"]).1 = false ∧ (loadSchema ["date", "region"]).2 ≠ [] ∧
    update none (loadSchema ["date", "region"]).2 "all" =
      (Fig.emptyFigure (missingMsg (loadSchema ["date", "region"]).2),
       Kpi.dash, Kpi.dash, Kpi.dash) :=
  missing_columns_placeholder ["date", "region"] "all" (Or.inl (by decide))

/-- C8 counterexample: an input row whose price `"abc"` is unparseable after
stripping but whose product is not `"pink morsel"` does NOT abort the run —
the product filter (line 12) runs before price parsing (line 15), so the run
succeeds and writes an output file. -/
theorem formatter_bad_price_filtered_out :
    parseDecimal (stripPrice "abc") = none ∧
    processData [⟨"other", "abc", 1, "2021-01-01", "north"⟩] = some [] := by
  constructor
  · rfl
  · rfl

/-- C8 (amended): if any row that survives the product filter has a price
that cannot be parsed after stripping `$` and `,`, the whole formatting run
fails — `astype(float)` raises, no per-row recovery happens, and no output
file is written. -/
theorem formatter_batch_fatal (rows : List FRow) (r : FRow)
    (hr : r ∈ rows) (hp : lowerString r.product = "pink morsel")
    (hn : parseDecimal (stripPrice r.price) = none) :
    processData rows = none := by
  have hk : r ∈ rows.filter (fun x => lowerString x.product = "pink morsel") :=
    List.mem_filter.2 ⟨hr, by simp [hp]⟩
  have hall := parseAll_eq_none (fun x => parseDecimal (stripPrice x.price))
    (rows.filter (fun x => lowerString x.product = "pink morsel")) r hk hn
  simp [processData, hall]

/-- Witness for C8's amended theorem: one Pink Morsel row with price `"abc"`. -/
theorem formatter_batch_fatal_witness :
    processData [⟨"Pink Morsel", "abc", 1, "2021-01-01", "north"⟩] = none :=
  formatter_batch_fatal [⟨"Pink Morsel", "abc", 1, "2021-01-01", "north"⟩]
    ⟨"Pink Morsel", "abc", 1, "2021-01-01", "north"⟩
    (List.mem_cons_self _ _) (by decide) (by decide)

/-- C9: the Filter Engine's date bounds are inclusive with an absent bound
unbounded on its side, and region/date filters compose:
`apply(table, region, d1, d2) = apply(apply(table, region, null, null), null, d1, d2)`. -/
theorem filter_engine_compose (t : List Row) (v : Option String) (d1 d2 : Option Nat) :
    (∀ r : Row, r ∈ applyFilter t none d1 d2 ↔
        r ∈ t ∧ (∀ a : Nat, d1 = some a → a ≤ r.date) ∧
          (∀ b : Nat, d2 = some b → r.date ≤ b)) ∧
    applyFilter t v d1 d2 = applyFilter (applyFilter t v none none) none d1 d2 := by
  constructor
  · intro r
    cases d1 <;> cases d2 <;>
      (simp [applyFilter, List.mem_filter, and_assoc]
       try tauto)
  · rfl

theorem isUpper_iff (c : Char) : c.isUpper = true ↔ 65 ≤ c.toNat ∧ c.toNat ≤ 90 := by
  have h65 : ((65 : UInt32).toBitVec).toNat = 65 := rfl
  have h90 : ((90 : UInt32).toBitVec).toNat = 90 := rfl
  rw [Char.isUpper, Bool.and_eq_true, decide_eq_true_iff, decide_eq_true_iff,
    GE.ge, UInt32.le_def, UInt32.le_def, BitVec.le_def, BitVec.le_def, h65, h90]
  exact Iff.rfl

theorem toLower_isUpper (c : Char) : (Char.toLower c).isUpper = false := by
  rw [Bool.eq_false_iff]
  intro hu
  rw [isUpper_iff] at hu
  unfold Char.toLower at hu
  by_cases h : Char.toNat c ≥ 65 ∧ Char.toNat c ≤ 90
  · rw [if_pos h] at hu
    have hv : (Char.toNat c + 32).isValidChar := Or.inl (by omega)
    have hval : (Char.ofNat (Char.toNat c + 32)).toNat = Char.toNat c + 32 := by
      rw [Char.ofNat, dif_pos hv]
      rfl
    rw [hval] at hu
    omega
  · rw [if_neg h] at hu
    exact h ⟨hu.1, hu.2⟩

theorem lowerString_not_upper (s : String) :
    ∀ c ∈ (lowerString s).data, c.isUpper = false := by
  intro c hc
  obtain ⟨a, _, rfl⟩ := List.mem_map.1 hc
  exact toLower_isUpper a

/-- C10: a region selection other than `"all"` containing an uppercase
character can never match: the load step lowercases every stored region while
the filter compares by direct string equality, so the filtered view is empty. -/
theorem uppercase_region_no_match (rt : List SRow) (v : String) (hv : v ≠ "all")
    (hu : ∃ c ∈ v.data, c.isUpper = true) :
    filterRegion (df_clean rt) v = [] := by
  rw [filterRegion, if_neg hv]
  rw [List.filter_eq_nil_iff]
  intro r hr
  obtain ⟨c, hc, hcu⟩ := hu
  obtain ⟨s, hs, hcs⟩ := mem_df_clean.1 hr
  have hreg := cleanRow_region hcs
  simp only [decide_eq_true_eq]
  intro heq
  have hmem : c ∈ r.region.data := heq.symm ▸ hc
  rw [hreg] at hmem
  have hfalse := lowerString_not_upper (strTrim (cellStr s.region)) c hmem
  rw [hcu] at hfalse
  cases hfalse

/-- Witness for C10: the stored region is `"north"` (lowercased at load), so
selecting `"North"` matches nothing. -/
theorem uppercase_region_no_match_witness :
    filterRegion (df_clean [⟨some "2021-01-14", some "3.00", some "North"⟩]) "North" = [] :=
  uppercase_region_no_match [⟨some "2021-01-14", some "3.00", some "North"⟩] "North"
    (by decide) ⟨'N', by decide, by decide⟩

end Quantium
